import Mathlib

/-!
Shallow embedding of the typemyjs runtime validation library
(src/src/index.ts).  JavaScript numbers are modelled as rationals
extended with NaN and the two infinities; on the values the library
manipulates, comparisons of exactly-representable doubles agree with
rational comparisons.  Fallible JavaScript code (property access on
null, calling a non-function) is modelled with Except.
-/

namespace TypeMyJS

/-- A JavaScript number: a finite value, NaN, or an infinity. -/
inductive JSNum where
  | fin (q : Rat)
  | nan
  | posInf
  | negInf
deriving DecidableEq, Repr

/-- JavaScript strict less-than on numbers: NaN compares false with everything. -/
def jsLt : JSNum → JSNum → Bool
  | JSNum.nan, _ => false
  | _, JSNum.nan => false
  | JSNum.negInf, JSNum.negInf => false
  | JSNum.negInf, _ => true
  | _, JSNum.negInf => false
  | JSNum.posInf, _ => false
  | JSNum.fin _, JSNum.posInf => true
  | JSNum.fin a, JSNum.fin b => decide (a < b)

/-- JavaScript less-or-equal on numbers: NaN compares false with everything. -/
def jsLe : JSNum → JSNum → Bool
  | JSNum.nan, _ => false
  | _, JSNum.nan => false
  | JSNum.negInf, _ => true
  | _, JSNum.negInf => false
  | _, JSNum.posInf => true
  | JSNum.posInf, _ => false
  | JSNum.fin a, JSNum.fin b => decide (a ≤ b)

/-- JavaScript strict equality on numbers: NaN is not equal to itself. -/
def jsNumEq : JSNum → JSNum → Bool
  | JSNum.nan, _ => false
  | _, JSNum.nan => false
  | JSNum.fin a, JSNum.fin b => decide (a = b)
  | JSNum.posInf, JSNum.posInf => true
  | JSNum.negInf, JSNum.negInf => true
  | _, _ => false

/-- JavaScript truthiness of a number: 0 and NaN are falsy. -/
def truthyNum : JSNum → Bool
  | JSNum.fin q => decide (q ≠ 0)
  | JSNum.nan => false
  | JSNum.posInf => true
  | JSNum.negInf => true

/-- The JavaScript primitive values the library manipulates. -/
inductive JSVal where
  | num (n : JSNum)
  | str (s : String)
  | boolV (b : Bool)
  | nullV
  | undef
deriving DecidableEq, Repr

/-- JavaScript strict equality (the === operator) on primitive values. -/
def jsStrictEq : JSVal → JSVal → Bool
  | JSVal.num a, JSVal.num b => jsNumEq a b
  | JSVal.str a, JSVal.str b => decide (a = b)
  | JSVal.boolV a, JSVal.boolV b => decide (a = b)
  | JSVal.nullV, JSVal.nullV => true
  | JSVal.undef, JSVal.undef => true
  | _, _ => false

/-- Array.prototype.indexOf(v) !== -1, i.e. membership by strict equality. -/
def jsContains (l : List JSVal) (v : JSVal) : Bool :=
  l.any (fun x => jsStrictEq x v)

/-- Error code NULL_OR_UNDEFINED from index.ts. -/
def NULL_OR_UNDEFINED : Nat := 100

/-- Error code NAN from index.ts. -/
def NAN : Nat := 200

/-- Error code OUT_OF_RANGE from index.ts. -/
def OUT_OF_RANGE : Nat := 300

/-- Error code MISMATCH_PARAMETERS from index.ts. -/
def MISMATCH_PARAMETERS : Nat := 400

/-- Error code UNDEFINED_OR_NULL_ATTRIBUTES from index.ts. -/
def UNDEFINED_OR_NULL_ATTRIBUTES : Nat := 500

/-- Configuration accepted by NumberType: an optional half-open range pair. -/
structure NumberConfig where
  range : Option (JSNum × JSNum)
deriving Repr

/-- Result of NumberType(...).validate(): either the bare success object
with error false, or an error object whose payload maps each failure
code to its diagnostic datum (none models the JavaScript null, a some
value models the configured range attached under OUT_OF_RANGE). -/
inductive NumRes where
  | okR
  | err (payload : List (Nat × Option (JSNum × JSNum)))
deriving DecidableEq, Repr

/-- Validation body of NumberType (index.ts lines 35-83).  The first
guard mirrors the source condition: not a number, or strictly equal to
the string literal "undfined" (sic), or strictly equal to null. -/
def numberValidate (cfg : NumberConfig) (value : JSVal) : NumRes :=
  let isNumber : Bool := match value with | JSVal.num _ => true | _ => false
  if !isNumber || jsStrictEq value (JSVal.str "undfined") || jsStrictEq value JSVal.nullV then
    NumRes.err [(NULL_OR_UNDEFINED, none)]
  else
    let n : JSNum := match value with | JSVal.num m => m | _ => JSNum.nan
    let isNotNan : Bool := !(match n with | JSNum.nan => true | _ => false)
    let isInRange : Bool := match cfg.range with
      | some r => jsLe r.1 n && jsLt n r.2
      | none => true
    let rules : List (Bool × Nat) :=
      [(isNotNan, NAN), (isNumber, NULL_OR_UNDEFINED), (isInRange, OUT_OF_RANGE)]
    let failing := rules.filter (fun r => r.1 = false)
    if failing.length ≠ 0 then
      NumRes.err (failing.map (fun r =>
        if r.2 = OUT_OF_RANGE then (OUT_OF_RANGE, cfg.range) else (r.2, none)))
    else
      NumRes.okR

/-- Configuration accepted by StringType: optional minLength and
optional oneOf allow-list. -/
structure StringConfig where
  minLength : Option JSNum
  oneOf : Option (List JSVal)
deriving Repr

/-- Result of StringType(...).validate().  The source has three distinct
return shapes: the oneOf-failure object carrying error true and the
validStringTypes list, the bare flag object returned when only isInRange
failed (it has no error field at all), and the success object with error
false. -/
inductive StrRes where
  | oneOfErr (isInRange : Bool) (isOneOf : Bool) (validStringTypes : Option (List JSVal))
  | bare (isInRange : Bool) (isOneOf : Bool)
  | okRes (isInRange : Bool) (isOneOf : Bool)
deriving DecidableEq, Repr

/-- The value of the error field of a StringType result; none means the
field is absent (the bare flag object). -/
def StrRes.errField : StrRes → Option Bool
  | StrRes.oneOfErr _ _ _ => some true
  | StrRes.bare _ _ => none
  | StrRes.okRes _ _ => some false

/-- A validation result for one field, tagged by which validator ran. -/
inductive FieldRes where
  | numR (r : NumRes)
  | strR (r : StrRes)
deriving DecidableEq, Repr

/-- The error field of a field result as the source reads it. -/
def FieldRes.errField : FieldRes → Option Bool
  | FieldRes.numR NumRes.okR => some false
  | FieldRes.numR (NumRes.err _) => some true
  | FieldRes.strR r => r.errField

/-- Aggregate result of validateObjectConstruction. -/
structure CtorResult where
  error : Bool
  errorPayload : List (String × FieldRes)
deriving DecidableEq, Repr

/-- A JavaScript exception: a native Error with its message, a TypeError
raised by the runtime (property access on null or undefined, calling a
non-function), or a thrown plain data object (wrapWithType throws the
constructor validation result itself). -/
inductive JSExc where
  | errObj (msg : String)
  | typeErr
  | thrownData (r : CtorResult)
deriving DecidableEq, Repr

/-- Reading the length property of a value: throws a TypeError on null
and undefined, yields the character count on strings, and undefined on
other primitives. -/
def lengthProp : JSVal → Except JSExc JSVal
  | JSVal.str s => Except.ok (JSVal.num (JSNum.fin s.length))
  | JSVal.nullV => Except.error JSExc.typeErr
  | JSVal.undef => Except.error JSExc.typeErr
  | _ => Except.ok JSVal.undef

/-- The isInRange flag of StringType (index.ts lines 105-107): when a
truthy minLength is configured it reads value.length, which can throw;
a non-numeric length (undefined) compares false, as NaN does. -/
def strIsInRange (cfg : StringConfig) (value : JSVal) : Except JSExc Bool :=
  match cfg.minLength with
  | none => Except.ok true
  | some m =>
    if truthyNum m then
      match lengthProp value with
      | Except.error e => Except.error e
      | Except.ok (JSVal.num len) => Except.ok (jsLe m len)
      | Except.ok _ => Except.ok false
    else Except.ok true

/-- The isOneOf flag of StringType (index.ts lines 108-111): membership
by indexOf when an allow-list array is configured, true otherwise. -/
def strIsOneOf (cfg : StringConfig) (value : JSVal) : Bool :=
  match cfg.oneOf with
  | some l => jsContains l value
  | none => true

/-- Validation body of StringType (index.ts lines 100-143).  When at
least one flag is false: the oneOf failure returns the error object with
validStringTypes attached; the minLength-only failure returns the bare
flag object (no error field).  Otherwise the success object. -/
def stringValidate (cfg : StringConfig) (value : JSVal) : Except JSExc StrRes :=
  match strIsInRange cfg value with
  | Except.error e => Except.error e
  | Except.ok isInRange =>
    let isOneOf := strIsOneOf cfg value
    if !isInRange || !isOneOf then
      if isOneOf = false then
        Except.ok (StrRes.oneOfErr isInRange isOneOf cfg.oneOf)
      else
        Except.ok (StrRes.bare isInRange isOneOf)
    else
      Except.ok (StrRes.okRes isInRange isOneOf)

/-- An accessor declared under requiredAttributes; none models a
non-function value there (the source then uses the raw attribute). -/
def Accessor : Type := Option (JSVal → JSVal)

/-- One value of the schema object: a NumberType validator producer, a
StringType validator producer, a FunctionType descriptor (a plain object
carrying optional requiredParams and requiredAttributes), or the array
stored under the reserved __constructorParameters key. -/
inductive SchemaEntry where
  | numV (cfg : NumberConfig)
  | strV (cfg : StringConfig)
  | funcT (requiredParams : Option (List String))
          (requiredAttributes : Option (List (String × Accessor)))
  | ctorParamsE (l : List String)

/-- A schema object: key-value pairs in insertion order. -/
def Schema : Type := List (String × SchemaEntry)

/-- Reading schema.__constructorParameters and checking Array.isArray
(index.ts lines 163-166): only the reserved-key array qualifies. -/
def getCtorParams (schema : Schema) : Option (List String) :=
  match schema.lookup "__constructorParameters" with
  | some (SchemaEntry.ctorParamsE l) => some l
  | _ => none

/-- Calling a schema entry as a validator producer and validating:
NumberType never throws, StringType may throw reading length, and
calling a FunctionType object or the reserved array raises a TypeError
since they are not functions. -/
def runEntryAsValidator : SchemaEntry → JSVal → Except JSExc FieldRes
  | SchemaEntry.numV cfg, v => Except.ok (FieldRes.numR (numberValidate cfg v))
  | SchemaEntry.strV cfg, v =>
      match stringValidate cfg v with
      | Except.error e => Except.error e
      | Except.ok r => Except.ok (FieldRes.strR r)
  | SchemaEntry.funcT _ _, _ => Except.error JSExc.typeErr
  | SchemaEntry.ctorParamsE _, _ => Except.error JSExc.typeErr

/-- An argument passed where the source expects an object: either an
actual object (its own enumerable properties in insertion order) or a
primitive. -/
inductive JSArg where
  | objArg (o : List (String × JSVal))
  | prim (v : JSVal)

/-- The guard typeof x === "object" && String(x) !== "null": true only
for non-null objects (typeof null is "object" but it stringifies to
"null"). -/
def isObjectNonNull : JSArg → Bool
  | JSArg.objArg _ => true
  | JSArg.prim _ => false

/-- Object.keys: own enumerable keys of an object; index strings for a
string primitive; empty for numbers and booleans; TypeError on null and
undefined. -/
def jsObjKeys : JSArg → Except JSExc (List String)
  | JSArg.objArg o => Except.ok (o.map Prod.fst)
  | JSArg.prim (JSVal.str s) => Except.ok ((List.range s.length).map toString)
  | JSArg.prim (JSVal.num _) => Except.ok []
  | JSArg.prim (JSVal.boolV _) => Except.ok []
  | JSArg.prim JSVal.nullV => Except.error JSExc.typeErr
  | JSArg.prim JSVal.undef => Except.error JSExc.typeErr

/-- The filter computing which required names are absent from the
supplied key list (index.ts lines 168-170 and 228-230). -/
def paramDiff (required : List String) (keys : List String) : List String :=
  required.filter (fun p => !(keys.contains p))

/-- The message of the mismatch error thrown by the constructor check
(index.ts lines 172-176). -/
def mismatchMsg (required : List String) (keys : List String) : String :=
  "Mismatch constructor argument. Expected " ++ String.intercalate ", " required ++
    " but only got " ++ String.intercalate ", " keys ++ "."

/-- Validation of one constructor-argument entry (the body of the
forEach at index.ts lines 182-190): keys without a schema entry are
skipped, otherwise the entry is called as a validator and the result is
recorded exactly when its error field is strictly equal to true. -/
def fieldCheck (schema : Schema) (kv : String × JSVal) :
    Except JSExc (Option (String × FieldRes)) :=
  match schema.lookup kv.1 with
  | none => Except.ok none
  | some e =>
    match runEntryAsValidator e kv.2 with
    | Except.error exc => Except.error exc
    | Except.ok r =>
      if r.errField = some true then Except.ok (some (kv.1, r))
      else Except.ok none

/-- The forEach loop of validateObjectConstruction, accumulating the
error payload in argument-key order. -/
def ctorFieldLoop (schema : Schema) : List (String × JSVal) →
    Except JSExc (List (String × FieldRes))
  | [] => Except.ok []
  | kv :: rest =>
    match fieldCheck schema kv with
    | Except.error e => Except.error e
    | Except.ok hd =>
      match ctorFieldLoop schema rest with
      | Except.error e => Except.error e
      | Except.ok tl =>
        Except.ok (match hd with
          | some p => p :: tl
          | none => tl)

/-- validateObjectConstruction (index.ts lines 151-196): throws on a
non-object argument, throws the mismatch Error when declared required
constructor parameters are missing, then validates every supplied key
that has a schema entry and aggregates failures. -/
def validateObjectConstruction (arg : JSArg) (schema : Schema) :
    Except JSExc CtorResult :=
  if !(isObjectNonNull arg) then
    Except.error (JSExc.errObj "Must pass a valid object to the constructor function.")
  else
    match jsObjKeys arg with
    | Except.error e => Except.error e
    | Except.ok keys =>
      let paramGate : Except JSExc Unit :=
        match getCtorParams schema with
        | some required =>
          if (paramDiff required keys).length ≠ 0 then
            Except.error (JSExc.errObj (mismatchMsg required keys))
          else Except.ok ()
        | none => Except.ok ()
      match paramGate with
      | Except.error e => Except.error e
      | Except.ok _ =>
        match arg with
        | JSArg.objArg o =>
          match ctorFieldLoop schema o with
          | Except.error e => Except.error e
          | Except.ok pl => Except.ok { error := !pl.isEmpty, errorPayload := pl }
        | JSArg.prim _ => Except.error JSExc.typeErr

/-- An instance: its own attributes. -/
def Inst : Type := List (String × JSVal)

/-- Property access on an instance: undefined when the attribute is
absent. -/
def instGet (t : Inst) (k : String) : JSVal :=
  match t.lookup k with
  | some v => v
  | none => JSVal.undef

/-- An original (unwrapped) method: receiver and single argument to
return value. -/
def RawFn : Type := Inst → JSArg → JSVal

/-- Result of calling an intercepted method: the code-400 missing
parameter object, the code-500 attribute failure object, or the success
object carrying the original return value under result. -/
inductive CallRes where
  | missingParams (data : List String)
  | badAttrs (errorPayload : List (String × FieldRes))
  | okCall (result : JSVal)

/-- The required-parameter phase of the interceptor (index.ts lines
216-242): skipped when no array was declared; throws on a non-object
argument; yields the missing-name list when at least one required name
is absent. -/
def paramPhase (rp : Option (List String)) (arg : JSArg) :
    Except JSExc (Option (List String)) :=
  match rp with
  | none => Except.ok none
  | some l =>
    if !(isObjectNonNull arg) then
      Except.error (JSExc.errObj "Must pass a valid object to the function.")
    else
      match jsObjKeys arg with
      | Except.error e => Except.error e
      | Except.ok keys =>
        let diff := paramDiff l keys
        if diff.length ≥ 1 then Except.ok (some diff) else Except.ok none

/-- Checking one required attribute (body of the forEach at index.ts
lines 253-268): apply the accessor when it is a function, look the
validator up in the whole schema (undefined there makes the call a
TypeError), and report the result when its error field is truthy. -/
def attrOne (schema : Schema) (target : Inst) (p : String × Accessor) :
    Except JSExc (Option FieldRes) :=
  let raw := instGet target p.1
  let val := match p.2 with
    | some f => f raw
    | none => raw
  match schema.lookup p.1 with
  | none => Except.error JSExc.typeErr
  | some e =>
    match runEntryAsValidator e val with
    | Except.error exc => Except.error exc
    | Except.ok r =>
      if r.errField = some true then Except.ok (some r) else Except.ok none

/-- The attribute forEach loop, aggregating every failure in declaration
order. -/
def attrLoop (schema : Schema) (target : Inst) : List (String × Accessor) →
    Except JSExc (List (String × FieldRes))
  | [] => Except.ok []
  | p :: rest =>
    match attrOne schema target p with
    | Except.error e => Except.error e
    | Except.ok hd =>
      match attrLoop schema target rest with
      | Except.error e => Except.error e
      | Except.ok tl =>
        Except.ok (match hd with
          | some r => (p.1, r) :: tl
          | none => tl)

/-- The intercepted method produced by requiredFunctionParameters
(index.ts lines 208-282): parameter phase first, then the attribute
phase when a non-empty requiredAttributes object was declared, and only
if both pass is the original method invoked on the receiver. -/
def callIntercepted (schema : Schema) (rp : Option (List String))
    (ra : Option (List (String × Accessor))) (f : RawFn)
    (target : Inst) (arg : JSArg) : Except JSExc CallRes :=
  match paramPhase rp arg with
  | Except.error e => Except.error e
  | Except.ok (some diff) => Except.ok (CallRes.missingParams diff)
  | Except.ok none =>
    match ra with
    | some attrs =>
      if attrs.length ≠ 0 then
        match attrLoop schema target attrs with
        | Except.error e => Except.error e
        | Except.ok pl =>
          if !pl.isEmpty then Except.ok (CallRes.badAttrs pl)
          else Except.ok (CallRes.okCall (f target arg))
      else Except.ok (CallRes.okCall (f target arg))
    | none => Except.ok (CallRes.okCall (f target arg))

/-- A prototype slot after wrapping: either untouched or replaced by the
interceptor closed over the extracted contract. -/
inductive ProtoFun where
  | raw (f : RawFn)
  | intercepted (rp : Option (List String))
                (ra : Option (List (String × Accessor))) (f : RawFn)

/-- Reading entry.requiredParams: undefined unless the entry is a
FunctionType descriptor (property access on a function or array yields
undefined). -/
def extractRP : SchemaEntry → Option (List String)
  | SchemaEntry.funcT rp _ => rp
  | _ => none

/-- Reading entry.requiredAttributes, as for extractRP. -/
def extractRA : SchemaEntry → Option (List (String × Accessor))
  | SchemaEntry.funcT _ ra => ra
  | _ => none

/-- The prototype rewrite of wrapWithType (index.ts lines 321-334):
every method whose name is a schema key is replaced, exactly once, by
the interceptor built from that entry; all other methods are kept as
they are. -/
def wrapMethods (schema : Schema) (methods : List (String × RawFn)) :
    List (String × ProtoFun) :=
  methods.map (fun p =>
    match schema.lookup p.1 with
    | some e => (p.1, ProtoFun.intercepted (extractRP e) (extractRA e) p.2)
    | none => (p.1, ProtoFun.raw p.2))

/-- The factory returned by wrapWithType (index.ts lines 336-350): run
the constructor validator when required constructor parameters are
declared or the argument has own keys, throw the aggregate result object
itself on error true, and otherwise construct the instance. -/
def factoryCall (schema : Schema) (ctor : JSArg → Inst) (arg : JSArg) :
    Except JSExc Inst :=
  let gate : Except JSExc Bool :=
    match getCtorParams schema with
    | some _ => Except.ok true
    | none =>
      match jsObjKeys arg with
      | Except.error e => Except.error e
      | Except.ok keys => Except.ok (keys.length ≠ 0)
  match gate with
  | Except.error e => Except.error e
  | Except.ok doValidate =>
    if doValidate then
      match validateObjectConstruction arg schema with
      | Except.error e => Except.error e
      | Except.ok v =>
        if v.error then Except.error (JSExc.thrownData v)
        else Except.ok (ctor arg)
    else Except.ok (ctor arg)

/-- Comparison with NaN on the right is false. -/
theorem jsLe_nan_right (a : JSNum) : jsLe a JSNum.nan = false := by
  cases a <;> rfl

/-- Comparison with NaN on the right is false. -/
theorem jsLt_nan_right (a : JSNum) : jsLt a JSNum.nan = false := by
  cases a <;> rfl

/-- Closed form of the numeric validator on a finite value against a
finite half-open range. -/
theorem numberValidate_fin (lo hi q : Rat) :
    numberValidate ⟨some (JSNum.fin lo, JSNum.fin hi)⟩ (JSVal.num (JSNum.fin q)) =
      if lo ≤ q ∧ q < hi then NumRes.okR
      else NumRes.err [(OUT_OF_RANGE, some (JSNum.fin lo, JSNum.fin hi))] := by
  by_cases h1 : lo ≤ q <;> by_cases h2 : q < hi <;>
    simp [numberValidate, jsStrictEq, jsNumEq, jsLe, jsLt, h1, h2,
      NAN, NULL_OR_UNDEFINED, OUT_OF_RANGE]

/-- The numeric validator on a non-number value short-circuits to the
NULL_OR_UNDEFINED payload. -/
theorem numberValidate_not_num (cfg : NumberConfig) (v : JSVal)
    (h : ∀ n, v ≠ JSVal.num n) :
    numberValidate cfg v = NumRes.err [(NULL_OR_UNDEFINED, none)] := by
  cases v
  case num n => exact absurd rfl (h n)
  all_goals simp [numberValidate, jsStrictEq]

/-- The numeric validator on NaN: NaN passes the first guard and fails
the NaN rule; with a configured range it also fails the range rule. -/
theorem numberValidate_nan (cfg : NumberConfig) :
    numberValidate cfg (JSVal.num JSNum.nan) =
      NumRes.err ((NAN, none) ::
        (match cfg.range with
         | some r => [(OUT_OF_RANGE, some r)]
         | none => [])) := by
  cases cfg with
  | mk rng =>
    cases rng with
    | none =>
      simp [numberValidate, jsStrictEq, jsNumEq, NAN, NULL_OR_UNDEFINED, OUT_OF_RANGE]
    | some r =>
      simp [numberValidate, jsStrictEq, jsNumEq, jsLe_nan_right, jsLt,
        NAN, NULL_OR_UNDEFINED, OUT_OF_RANGE]

/-- C4: for every value v and finite range bounds lo and hi,
NumberType with range lo to hi validates v with error false exactly when
v is a finite number q with lo ≤ q < hi; non-finite values such as
negative infinity or NaN never validate, and finite in-range values
always do. -/
theorem numberType_range_ok_iff (lo hi : Rat) (v : JSVal) :
    numberValidate ⟨some (JSNum.fin lo, JSNum.fin hi)⟩ v = NumRes.okR ↔
      ∃ q : Rat, v = JSVal.num (JSNum.fin q) ∧ lo ≤ q ∧ q < hi := by
  cases v with
  | num n =>
    cases n with
    | fin q =>
      rw [numberValidate_fin]
      by_cases h : lo ≤ q ∧ q < hi
      · simp [h]
      · simp only [if_neg h]
        constructor
        · intro hc
          exact absurd hc (by simp)
        · rintro ⟨q2, hq2, hle, hlt⟩
          cases hq2
          exact absurd ⟨hle, hlt⟩ h
    | nan =>
      rw [numberValidate_nan]
      simp
    | posInf =>
      constructor
      · intro hc
        exact absurd hc (by simp [numberValidate, jsStrictEq, jsNumEq, jsLe, jsLt,
          NAN, NULL_OR_UNDEFINED, OUT_OF_RANGE])
      · rintro ⟨q, hq, -, -⟩
        exact absurd hq (by simp)
    | negInf =>
      constructor
      · intro hc
        exact absurd hc (by simp [numberValidate, jsStrictEq, jsNumEq, jsLe, jsLt,
          NAN, NULL_OR_UNDEFINED, OUT_OF_RANGE])
      · rintro ⟨q, hq, -, -⟩
        exact absurd hq (by simp)
  | str s =>
    rw [numberValidate_not_num _ _ (by intro n h; cases h)]
    simp
  | boolV b =>
    rw [numberValidate_not_num _ _ (by intro n h; cases h)]
    simp
  | nullV =>
    rw [numberValidate_not_num _ _ (by intro n h; cases h)]
    simp
  | undef =>
    rw [numberValidate_not_num _ _ (by intro n h; cases h)]
    simp

/-- C7: a non-numeric or null value makes NumberType return the error
payload keyed only by NULL_OR_UNDEFINED (code 100), whatever the
configuration, so neither the NaN rule nor the range rule contributes;
NaN instead passes the first guard and yields a payload headed by the
distinct NAN code 200 and containing no code-100 entry. -/
theorem numberType_null_short_circuit_and_nan (cfg : NumberConfig) (v : JSVal) :
    ((∀ n, v ≠ JSVal.num n) →
      numberValidate cfg v = NumRes.err [(NULL_OR_UNDEFINED, none)])
    ∧ (∃ pl, numberValidate cfg (JSVal.num JSNum.nan) = NumRes.err pl ∧
        pl.head? = some (NAN, none) ∧ ∀ d, (NULL_OR_UNDEFINED, d) ∉ pl) := by
  constructor
  · intro h
    exact numberValidate_not_num cfg v h
  · refine ⟨_, numberValidate_nan cfg, rfl, ?_⟩
    intro d hd
    cases hrng : cfg.range with
    | none =>
      rw [hrng] at hd
      simp [NAN, NULL_OR_UNDEFINED] at hd
    | some r =>
      rw [hrng] at hd
      simp [NAN, NULL_OR_UNDEFINED, OUT_OF_RANGE] at hd

/-- Witness for C7 at a concrete non-numeric value and configuration. -/
theorem numberType_null_short_circuit_and_nan_witness :
    numberValidate ⟨some (JSNum.fin 0, JSNum.fin 100)⟩ (JSVal.str "hello") =
      NumRes.err [(NULL_OR_UNDEFINED, none)] ∧
    (∃ pl, numberValidate ⟨some (JSNum.fin 0, JSNum.fin 100)⟩ (JSVal.num JSNum.nan) =
        NumRes.err pl ∧ pl.head? = some (NAN, none) ∧
        ∀ d, (NULL_OR_UNDEFINED, d) ∉ pl) :=
  ⟨(numberType_null_short_circuit_and_nan ⟨some (JSNum.fin 0, JSNum.fin 100)⟩
      (JSVal.str "hello")).1 (by intro n h; cases h),
   (numberType_null_short_circuit_and_nan ⟨some (JSNum.fin 0, JSNum.fin 100)⟩
      (JSVal.str "hello")).2⟩

/-- Strict equality against a string literal coincides with value
equality. -/
theorem jsStrictEq_str (x : JSVal) (s : String) :
    jsStrictEq x (JSVal.str s) = decide (x = JSVal.str s) := by
  cases x <;> simp [jsStrictEq]

/-- Membership by indexOf coincides with list membership for string
values. -/
theorem jsContains_str (l : List JSVal) (s : String) :
    jsContains l (JSVal.str s) = true ↔ JSVal.str s ∈ l := by
  unfold jsContains
  rw [List.any_eq_true]
  constructor
  · rintro ⟨x, hx, hsx⟩
    rw [jsStrictEq_str] at hsx
    rw [decide_eq_true_eq] at hsx
    rw [← hsx]
    exact hx
  · intro hm
    exact ⟨JSVal.str s, hm, by rw [jsStrictEq_str]; simp⟩

/-- C1 counterexample: with minLength 3 and no allow-list, validating
the two-character string "ab" makes isInRange false while isOneOf is
true, yet the validator returns the bare flag object whose error field
is absent, not an error result carrying error true as the claim
demands. -/
theorem stringType_minLength_only_no_error_field :
    stringValidate ⟨some (JSNum.fin 3), none⟩ (JSVal.str "ab") =
      Except.ok (StrRes.bare false true) ∧
    StrRes.errField (StrRes.bare false true) ≠ some true :=
  ⟨rfl, by simp [StrRes.errField]⟩

/-- C1 amended: for a configured allow-list L and any string value, the
isOneOf flag is false exactly when the value is not a member of L; when
isOneOf is false the result carries error true, both flags, and
validStringTypes equal to L; but when only isInRange is false the
validator returns the bare flag object with no error field, and when
both flags hold it returns the error-false result. -/
theorem stringType_oneOf_flags (cfg : StringConfig) (L : List JSVal)
    (s : String) (b : Bool)
    (hL : cfg.oneOf = some L)
    (hb : strIsInRange cfg (JSVal.str s) = Except.ok b) :
    (strIsOneOf cfg (JSVal.str s) = false ↔ JSVal.str s ∉ L)
    ∧ (JSVal.str s ∉ L →
        stringValidate cfg (JSVal.str s) =
          Except.ok (StrRes.oneOfErr b false (some L)))
    ∧ (JSVal.str s ∈ L → b = false →
        stringValidate cfg (JSVal.str s) = Except.ok (StrRes.bare false true))
    ∧ (JSVal.str s ∈ L → b = true →
        stringValidate cfg (JSVal.str s) = Except.ok (StrRes.okRes true true)) := by
  have hone : strIsOneOf cfg (JSVal.str s) = jsContains L (JSVal.str s) := by
    unfold strIsOneOf
    rw [hL]
  refine ⟨?_, ?_, ?_, ?_⟩
  · rw [hone]
    constructor
    · intro hfalse hmem
      rw [(jsContains_str L s).2 hmem] at hfalse
      cases hfalse
    · intro hmem
      cases hc : jsContains L (JSVal.str s) with
      | false => rfl
      | true => exact absurd ((jsContains_str L s).1 hc) hmem
  · intro hmem
    have hc : jsContains L (JSVal.str s) = false := by
      cases hc : jsContains L (JSVal.str s) with
      | false => rfl
      | true => exact absurd ((jsContains_str L s).1 hc) hmem
    unfold stringValidate
    rw [hb, hone, hc]
    simp [hL]
  · intro hmem hbf
    have hc : jsContains L (JSVal.str s) = true := (jsContains_str L s).2 hmem
    unfold stringValidate
    rw [hb, hone, hc, hbf]
    simp
  · intro hmem hbt
    have hc : jsContains L (JSVal.str s) = true := (jsContains_str L s).2 hmem
    unfold stringValidate
    rw [hb, hone, hc, hbt]
    simp

/-- Witness for the amended C1 at a concrete configuration: allow-list
containing only "RED", value "BLUE" absent from it. -/
theorem stringType_oneOf_flags_witness :
    (strIsOneOf ⟨none, some [JSVal.str "RED"]⟩ (JSVal.str "BLUE") = false ↔
      JSVal.str "BLUE" ∉ [JSVal.str "RED"]) ∧
    (JSVal.str "BLUE" ∉ [JSVal.str "RED"] →
      stringValidate ⟨none, some [JSVal.str "RED"]⟩ (JSVal.str "BLUE") =
        Except.ok (StrRes.oneOfErr true false (some [JSVal.str "RED"]))) := by
  have h := stringType_oneOf_flags ⟨none, some [JSVal.str "RED"]⟩
    [JSVal.str "RED"] "BLUE" true rfl rfl
  exact ⟨h.1, h.2.1⟩

/-- C10: with a truthy minLength configured, StringType reads the
length property of the value before anything else, so validating null
or undefined raises a TypeError instead of returning a validation
result. -/
theorem stringType_throws_on_null_or_undefined (cfg : StringConfig)
    (m : JSNum) (v : JSVal)
    (hm : cfg.minLength = some m) (ht : truthyNum m = true)
    (hv : v = JSVal.nullV ∨ v = JSVal.undef) :
    stringValidate cfg v = Except.error JSExc.typeErr := by
  have hir : strIsInRange cfg v = Except.error JSExc.typeErr := by
    unfold strIsInRange
    rw [hm]
    simp only [ht, if_true]
    cases hv with
    | inl h => rw [h]; rfl
    | inr h => rw [h]; rfl
  unfold stringValidate
  rw [hir]

/-- Witness for C10 at minLength 3 and the null value. -/
theorem stringType_throws_on_null_or_undefined_witness :
    stringValidate ⟨some (JSNum.fin 3), none⟩ JSVal.nullV =
      Except.error JSExc.typeErr :=
  stringType_throws_on_null_or_undefined ⟨some (JSNum.fin 3), none⟩
    (JSNum.fin 3) JSVal.nullV rfl (by decide) (Or.inl rfl)

/-- When every entry of the argument object passes its field check, the
constructor field loop aggregates nothing. -/
theorem ctorFieldLoop_all_none (schema : Schema) (o : List (String × JSVal))
    (h : ∀ kv ∈ o, fieldCheck schema kv = Except.ok none) :
    ctorFieldLoop schema o = Except.ok [] := by
  induction o with
  | nil => rfl
  | cons kv rest ih =>
    unfold ctorFieldLoop
    rw [h kv (by simp), ih (fun kv2 hkv2 => h kv2 (by simp [hkv2]))]

/-- A string strictly shorter than the configured finite minLength makes
StringType return the bare flag object. -/
theorem stringValidate_short_bare (cfg : StringConfig) (mq : Rat) (s : String)
    (hml : cfg.minLength = some (JSNum.fin mq))
    (hone : cfg.oneOf = none)
    (hlen : (s.length : Rat) < mq) :
    stringValidate cfg (JSVal.str s) = Except.ok (StrRes.bare false true) := by
  have hmq : truthyNum (JSNum.fin mq) = true := by
    have h0 : (0 : Rat) ≤ (s.length : Rat) := by positivity
    have hpos : (0 : Rat) < mq := lt_of_le_of_lt h0 hlen
    simp [truthyNum]
    exact ne_of_gt hpos
  have hir : strIsInRange cfg (JSVal.str s) = Except.ok false := by
    unfold strIsInRange
    rw [hml]
    simp only [hmq, if_true]
    unfold lengthProp
    simp only [jsLe]
    rw [decide_eq_false (not_le.2 hlen)]
  have hoo : strIsOneOf cfg (JSVal.str s) = true := by
    unfold strIsOneOf
    rw [hone]
  unfold stringValidate
  rw [hir, hoo]
  simp

/-- C8: a constructor argument that violates only a minLength rule is
silently accepted: the bare flag object returned by StringType has no
error field, the loop records nothing for that key, and the aggregate
comes back with error false and an empty payload. -/
theorem ctor_minLength_violation_silent (schema : Schema) (fname : String)
    (cfg : StringConfig) (mq : Rat) (s : String) (o : List (String × JSVal))
    (hf : schema.lookup fname = some (SchemaEntry.strV cfg))
    (hml : cfg.minLength = some (JSNum.fin mq))
    (hone : cfg.oneOf = none)
    (hlen : (s.length : Rat) < mq)
    (hparams : ∀ ps, getCtorParams schema = some ps →
      paramDiff ps (o.map Prod.fst) = [])
    (hothers : ∀ kv ∈ o, kv.1 ≠ fname → fieldCheck schema kv = Except.ok none)
    (hfv : ∀ kv ∈ o, kv.1 = fname → kv.2 = JSVal.str s) :
    validateObjectConstruction (JSArg.objArg o) schema =
      Except.ok { error := false, errorPayload := [] } := by
  have hall : ∀ kv ∈ o, fieldCheck schema kv = Except.ok none := by
    intro kv hkv
    by_cases hk : kv.1 = fname
    · have hv2 : kv.2 = JSVal.str s := hfv kv hkv hk
      have hsv := stringValidate_short_bare cfg mq s hml hone hlen
      simp [fieldCheck, hk, hf, hv2, runEntryAsValidator, hsv,
        FieldRes.errField, StrRes.errField]
    · exact hothers kv hkv hk
  have hloop := ctorFieldLoop_all_none schema o hall
  unfold validateObjectConstruction
  cases hg : getCtorParams schema with
  | none =>
    simp [hg, hloop, isObjectNonNull, jsObjKeys]
  | some ps =>
    simp [hg, hloop, hparams ps hg, isObjectNonNull, jsObjKeys]

/-- Witness for C8: a schema with a single minLength-3 string field and
an argument supplying the two-character string "ab" for it. -/
theorem ctor_minLength_violation_silent_witness :
    validateObjectConstruction
      (JSArg.objArg [("name", JSVal.str "ab")])
      [("name", SchemaEntry.strV ⟨some (JSNum.fin 3), none⟩)] =
      Except.ok { error := false, errorPayload := [] } := by
  refine ctor_minLength_violation_silent
    [("name", SchemaEntry.strV ⟨some (JSNum.fin 3), none⟩)] "name"
    ⟨some (JSNum.fin 3), none⟩ 3 "ab" [("name", JSVal.str "ab")]
    rfl rfl rfl (by decide) ?_ ?_ ?_
  · intro ps hps
    cases hps
  · intro kv hkv hne
    simp at hkv
    subst hkv
    exact absurd rfl hne
  · intro kv hkv _
    simp at hkv
    subst hkv
    rfl

/-- C2: when the required-parameter phase reports nothing missing and
the attribute phase aggregates no failure, the intercepted method
invokes the original on the same receiver and argument and returns its
value under error false and result, so intercepted methods agree with
the unwrapped methods on valid inputs. -/
theorem intercepted_valid_refines (schema : Schema) (rp : Option (List String))
    (ra : Option (List (String × Accessor))) (f : RawFn) (target : Inst)
    (arg : JSArg)
    (hp : paramPhase rp arg = Except.ok none)
    (ha : ∀ attrs, ra = some attrs → attrLoop schema target attrs = Except.ok []) :
    callIntercepted schema rp ra f target arg =
      Except.ok (CallRes.okCall (f target arg)) := by
  unfold callIntercepted
  rw [hp]
  cases ra with
  | none => rfl
  | some attrs =>
    simp only [ha attrs rfl, List.isEmpty_nil, Bool.not_true,
      Bool.false_eq_true, if_false]
    split
    · rfl
    · rfl

/-- Witness for C2: a wrapped method with one required parameter and one
required attribute, both satisfied, returns the original return value. -/
theorem intercepted_valid_refines_witness :
    callIntercepted [("length", SchemaEntry.numV ⟨some (JSNum.fin 0, JSNum.fin 100)⟩)]
      (some ["x"]) (some [("length", (none : Accessor))])
      (fun _ _ => JSVal.num (JSNum.fin 7))
      [("length", JSVal.num (JSNum.fin 5))]
      (JSArg.objArg [("x", JSVal.num (JSNum.fin 1))]) =
      Except.ok (CallRes.okCall (JSVal.num (JSNum.fin 7))) :=
  intercepted_valid_refines
    [("length", SchemaEntry.numV ⟨some (JSNum.fin 0, JSNum.fin 100)⟩)]
    (some ["x"]) (some [("length", (none : Accessor))])
    (fun _ _ => JSVal.num (JSNum.fin 7))
    [("length", JSVal.num (JSNum.fin 5))]
    (JSArg.objArg [("x", JSVal.num (JSNum.fin 1))])
    rfl
    (by intro attrs h; cases h; rfl)

/-- Every attribute whose individual check fails contributes its entry
to the aggregate payload of the attribute loop: the loop never
short-circuits. -/
theorem attrLoop_mem (schema : Schema) (target : Inst)
    (attrs : List (String × Accessor)) (pl : List (String × FieldRes))
    (hl : attrLoop schema target attrs = Except.ok pl) :
    ∀ x ∈ attrs, ∀ r, attrOne schema target x = Except.ok (some r) →
      (x.1, r) ∈ pl := by
  induction attrs generalizing pl with
  | nil =>
    intro x hx
    cases hx
  | cons p rest ih =>
    intro x hx r hr
    cases h1 : attrOne schema target p with
    | error e =>
      have hstep : attrLoop schema target (p :: rest) = Except.error e := by
        unfold attrLoop
        rw [h1]
      rw [hstep] at hl
      cases hl
    | ok hd =>
      cases h2 : attrLoop schema target rest with
      | error e =>
        have hstep : attrLoop schema target (p :: rest) = Except.error e := by
          unfold attrLoop
          rw [h1, h2]
        rw [hstep] at hl
        cases hl
      | ok tl =>
        cases hd with
        | none =>
          have hstep : attrLoop schema target (p :: rest) = Except.ok tl := by
            unfold attrLoop
            rw [h1, h2]
          rw [hstep] at hl
          injection hl with hpl
          subst hpl
          cases hx with
          | head =>
            have h3 := h1.symm.trans hr
            injection h3 with h4
            cases h4
          | tail b hx2 =>
            exact ih tl h2 x hx2 r hr
        | some r2 =>
          have hstep : attrLoop schema target (p :: rest) =
              Except.ok ((p.1, r2) :: tl) := by
            unfold attrLoop
            rw [h1, h2]
          rw [hstep] at hl
          injection hl with hpl
          subst hpl
          cases hx with
          | head =>
            have h3 := h1.symm.trans hr
            injection h3 with h4
            injection h4 with h5
            rw [← h5]
            exact List.mem_cons_self _ _
          | tail b hx2 =>
            exact List.mem_cons_of_mem _ (ih tl h2 x hx2 r hr)

/-- C6: calling an intercepted method on an argument object missing a
required parameter returns the code-400 missing-parameter result, for
every original method and every attribute declaration, so the original
body never runs and the parameter phase precedes the attribute phase;
and when the attribute phase rejects, the code-500 aggregate is
returned, again for every original method, and it contains an entry for
every failing attribute. -/
theorem interceptor_error_paths (schema : Schema) (target : Inst)
    (o : List (String × JSVal)) :
    (∀ (l : List String) ra (f g : RawFn),
      paramDiff l (o.map Prod.fst) ≠ [] →
      callIntercepted schema (some l) ra f target (JSArg.objArg o) =
        Except.ok (CallRes.missingParams (paramDiff l (o.map Prod.fst)))
      ∧ callIntercepted schema (some l) ra f target (JSArg.objArg o) =
        callIntercepted schema (some l) ra g target (JSArg.objArg o))
    ∧ (∀ rp attrs pl (f g : RawFn),
      paramPhase rp (JSArg.objArg o) = Except.ok none →
      attrLoop schema target attrs = Except.ok pl → pl ≠ [] →
      callIntercepted schema rp (some attrs) f target (JSArg.objArg o) =
        Except.ok (CallRes.badAttrs pl)
      ∧ callIntercepted schema rp (some attrs) f target (JSArg.objArg o) =
        callIntercepted schema rp (some attrs) g target (JSArg.objArg o)
      ∧ ∀ x ∈ attrs, ∀ r, attrOne schema target x = Except.ok (some r) →
          (x.1, r) ∈ pl) := by
  constructor
  · intro l ra f g hdiff
    have hres : ∀ h : RawFn,
        callIntercepted schema (some l) ra h target (JSArg.objArg o) =
          Except.ok (CallRes.missingParams (paramDiff l (o.map Prod.fst))) := by
      intro h
      have hlen : 1 ≤ (paramDiff l (o.map Prod.fst)).length := by
        cases hpd : paramDiff l (o.map Prod.fst) with
        | nil => exact absurd hpd hdiff
        | cons a t => simp
      unfold callIntercepted paramPhase
      simp [isObjectNonNull, jsObjKeys, hlen]
    exact ⟨hres f, (hres f).trans (hres g).symm⟩
  · intro rp attrs pl f g hp hl hne
    have hlen0 : attrs.length ≠ 0 := by
      intro h0
      have hnil : attrs = [] := List.length_eq_zero.1 h0
      subst hnil
      injection hl with h
      exact hne h.symm
    have hpe : pl.isEmpty = false := by
      cases pl with
      | nil => exact absurd rfl hne
      | cons a t => rfl
    have hres : ∀ h : RawFn,
        callIntercepted schema rp (some attrs) h target (JSArg.objArg o) =
          Except.ok (CallRes.badAttrs pl) := by
      intro h
      unfold callIntercepted
      rw [hp]
      simp only [hlen0, ne_eq, not_false_eq_true, if_true, hl, hpe,
        Bool.not_false, if_true]
    exact ⟨hres f, (hres f).trans (hres g).symm,
      attrLoop_mem schema target attrs pl hl⟩

/-- A concrete original method used to witness the interceptor
theorems. -/
def spyMethod : RawFn := fun _ _ => JSVal.str "ran"

/-- Witness for C6: a call missing the required parameter x returns the
code-400 result, and a call whose single required attribute fails the
range check returns the code-500 aggregate naming that attribute. -/
theorem interceptor_error_paths_witness :
    callIntercepted [] (some ["x"]) none spyMethod [] (JSArg.objArg []) =
      Except.ok (CallRes.missingParams ["x"]) ∧
    callIntercepted [("length", SchemaEntry.numV ⟨some (JSNum.fin 0, JSNum.fin 1)⟩)]
      none (some [("length", (none : Accessor))]) spyMethod
      [("length", JSVal.num (JSNum.fin 5))] (JSArg.objArg []) =
      Except.ok (CallRes.badAttrs [("length", FieldRes.numR
        (NumRes.err [(OUT_OF_RANGE, some (JSNum.fin 0, JSNum.fin 1))]))]) :=
  ⟨((interceptor_error_paths [] [] []).1 ["x"] none spyMethod spyMethod
      (by intro h; cases h)).1,
   ((interceptor_error_paths
      [("length", SchemaEntry.numV ⟨some (JSNum.fin 0, JSNum.fin 1)⟩)]
      [("length", JSVal.num (JSNum.fin 5))] []).2
      none [("length", (none : Accessor))]
      [("length", FieldRes.numR
        (NumRes.err [(OUT_OF_RANGE, some (JSNum.fin 0, JSNum.fin 1))]))]
      spyMethod spyMethod rfl rfl (by intro h; cases h)).1⟩

/-- The identity accessor written a => a in the scenario schema. -/
def idAccessor : Accessor := some (fun v => v)

/-- The requiredAttributes mapping of the scenario: length and width,
both with the identity accessor. -/
def areaAttrs : List (String × Accessor) :=
  [("length", idAccessor), ("width", idAccessor)]

/-- The scenario schema: a range-checked length and a calculateArea
contract requiring the length and width attributes; note there is no
width entry at the top level. -/
def areaSchema : Schema :=
  [("length", SchemaEntry.numV ⟨some (JSNum.fin 0, JSNum.fin 100)⟩),
   ("calculateArea", SchemaEntry.funcT none (some areaAttrs))]

/-- The user constructor of the scenario class: it copies length off the
argument object and sets no width. -/
def areaCtor (a : JSArg) : Inst :=
  [("length", match a with
    | JSArg.objArg o =>
      (match o.lookup "length" with
       | some v => v
       | none => JSVal.undef)
    | JSArg.prim _ => JSVal.undef)]

/-- The original calculateArea body (its behaviour is irrelevant: the
scenario never reaches it). -/
def areaMethod : RawFn := fun _ _ => JSVal.undef

/-- The instance built by the wrapped factory from length fifty. -/
def areaInstance : Inst := [("length", JSVal.num (JSNum.fin 50))]

/-- True exactly when a method call returned the code-500 attribute
error result. -/
def isCode500 : Except JSExc CallRes → Bool
  | Except.ok (CallRes.badAttrs _) => true
  | _ => false

/-- C3 counterexample: in the scenario the intercepted calculateArea
call on the empty argument object does not return a code-500 error
result, contradicting the claim. -/
theorem calcArea_missing_width_not_code500 :
    isCode500 (callIntercepted areaSchema none (some areaAttrs) areaMethod
      areaInstance (JSArg.objArg [])) = false := rfl

/-- C3 amended: wrapping replaces calculateArea by the interceptor,
constructing with length fifty succeeds and yields an instance without
width, and calling calculateArea on the empty object then throws a
TypeError, because the attribute loop reaches width, applies its
accessor to the undefined instance value, and looks the validator up as
validationObject width, which is undefined and not callable; no code-500
result is produced. -/
theorem calcArea_missing_width_throws :
    wrapMethods areaSchema [("calculateArea", areaMethod)] =
      [("calculateArea", ProtoFun.intercepted none (some areaAttrs) areaMethod)]
    ∧ factoryCall areaSchema areaCtor
        (JSArg.objArg [("length", JSVal.num (JSNum.fin 50))]) =
      Except.ok areaInstance
    ∧ callIntercepted areaSchema none (some areaAttrs) areaMethod
        areaInstance (JSArg.objArg []) = Except.error JSExc.typeErr :=
  ⟨rfl, rfl, rfl⟩

/-- C5: the wrapped factory has two failure channels, both firing before
the user constructor runs (the outcome is the same for every
constructor): a missing declared required constructor parameter makes it
throw a native Error whose message lists the expected and the received
key sets, and a field-validation aggregate with error true is thrown as
the plain result object itself. -/
theorem factory_failure_channels (schema : Schema) (o : List (String × JSVal)) :
    (∀ ps (ctor ctor2 : JSArg → Inst), getCtorParams schema = some ps →
      paramDiff ps (o.map Prod.fst) ≠ [] →
      factoryCall schema ctor (JSArg.objArg o) =
        Except.error (JSExc.errObj (mismatchMsg ps (o.map Prod.fst)))
      ∧ factoryCall schema ctor (JSArg.objArg o) =
        factoryCall schema ctor2 (JSArg.objArg o))
    ∧ (∀ r (ctor ctor2 : JSArg → Inst),
      validateObjectConstruction (JSArg.objArg o) schema = Except.ok r →
      r.error = true →
      factoryCall schema ctor (JSArg.objArg o) =
        Except.error (JSExc.thrownData r)
      ∧ factoryCall schema ctor (JSArg.objArg o) =
        factoryCall schema ctor2 (JSArg.objArg o)) := by
  constructor
  · intro ps ctor ctor2 hg hdiff
    have hlen : (paramDiff ps (o.map Prod.fst)).length ≠ 0 := by
      intro hc
      exact hdiff (List.length_eq_zero.1 hc)
    have hval : validateObjectConstruction (JSArg.objArg o) schema =
        Except.error (JSExc.errObj (mismatchMsg ps (o.map Prod.fst))) := by
      unfold validateObjectConstruction
      simp [isObjectNonNull, jsObjKeys, hg, hlen]
    have hres : ∀ c : JSArg → Inst, factoryCall schema c (JSArg.objArg o) =
        Except.error (JSExc.errObj (mismatchMsg ps (o.map Prod.fst))) := by
      intro c
      unfold factoryCall
      simp [hg, hval]
    exact ⟨hres ctor, (hres ctor).trans (hres ctor2).symm⟩
  · intro r ctor ctor2 hv herr
    have hres : ∀ c : JSArg → Inst, factoryCall schema c (JSArg.objArg o) =
        Except.error (JSExc.thrownData r) := by
      intro c
      cases hg : getCtorParams schema with
      | some ps =>
        unfold factoryCall
        simp [hg, hv, herr]
      | none =>
        cases hloop : ctorFieldLoop schema o with
        | error e =>
          have hv2 : validateObjectConstruction (JSArg.objArg o) schema =
              Except.error e := by
            unfold validateObjectConstruction
            simp [isObjectNonNull, jsObjKeys, hg, hloop]
          rw [hv2] at hv
          cases hv
        | ok pl =>
          have hv2 : validateObjectConstruction (JSArg.objArg o) schema =
              Except.ok { error := !pl.isEmpty, errorPayload := pl } := by
            unfold validateObjectConstruction
            simp [isObjectNonNull, jsObjKeys, hg, hloop]
          rw [hv2] at hv
          injection hv with h3
          subst h3
          have hpl : pl ≠ [] := by
            intro h0
            subst h0
            simp at herr
          have honil : o ≠ [] := by
            intro h0
            subst h0
            have h4 : (Except.ok [] : Except JSExc (List (String × FieldRes))) =
                Except.ok pl := hloop
            injection h4 with h5
            exact hpl h5.symm
          have hklen : (o.map Prod.fst).length ≠ 0 := by
            intro hc
            rw [List.length_map] at hc
            exact honil (List.length_eq_zero.1 hc)
          unfold factoryCall
          simp [hg, jsObjKeys, hklen, honil, hv2, herr, hpl]
    exact ⟨hres ctor, (hres ctor).trans (hres ctor2).symm⟩

/-- Witness for C5 at a concrete schema: a missing required constructor
parameter width throws the listing Error, and an out-of-range length
throws the aggregate result object itself. -/
theorem factory_failure_channels_witness :
    factoryCall
      [("__constructorParameters", SchemaEntry.ctorParamsE ["length", "width"]),
       ("length", SchemaEntry.numV ⟨some (JSNum.fin 0, JSNum.fin 100)⟩)]
      areaCtor (JSArg.objArg [("length", JSVal.num (JSNum.fin 50))]) =
      Except.error (JSExc.errObj
        "Mismatch constructor argument. Expected length, width but only got length.")
    ∧ factoryCall [("length", SchemaEntry.numV ⟨some (JSNum.fin 0, JSNum.fin 100)⟩)]
        areaCtor (JSArg.objArg [("length", JSVal.num (JSNum.fin 500))]) =
      Except.error (JSExc.thrownData
        { error := true,
          errorPayload := [("length", FieldRes.numR
            (NumRes.err [(OUT_OF_RANGE, some (JSNum.fin 0, JSNum.fin 100))]))] }) :=
  ⟨((factory_failure_channels
      [("__constructorParameters", SchemaEntry.ctorParamsE ["length", "width"]),
       ("length", SchemaEntry.numV ⟨some (JSNum.fin 0, JSNum.fin 100)⟩)]
      [("length", JSVal.num (JSNum.fin 50))]).1
      ["length", "width"] areaCtor areaCtor rfl (by decide)).1,
   ((factory_failure_channels
      [("length", SchemaEntry.numV ⟨some (JSNum.fin 0, JSNum.fin 100)⟩)]
      [("length", JSVal.num (JSNum.fin 500))]).2
      { error := true,
        errorPayload := [("length", FieldRes.numR
          (NumRes.err [(OUT_OF_RANGE, some (JSNum.fin 0, JSNum.fin 100))]))] }
      areaCtor areaCtor rfl rfl).1⟩

/-- C9: wrapping keeps the method list and its order intact, leaves
every method whose name is not a schema key exactly as it was, and
replaces each method whose name is a schema key by exactly one
interceptor layer closed over the requiredParams and requiredAttributes
read off that schema entry. -/
theorem wrap_rewrites_exactly_schema_methods (schema : Schema)
    (methods : List (String × RawFn)) :
    ((wrapMethods schema methods).map Prod.fst = methods.map Prod.fst)
    ∧ (∀ name, schema.lookup name = none →
        (wrapMethods schema methods).lookup name =
          (methods.map (fun p => (p.1, ProtoFun.raw p.2))).lookup name)
    ∧ (∀ name e f, schema.lookup name = some e →
        methods.lookup name = some f →
        (wrapMethods schema methods).lookup name =
          some (ProtoFun.intercepted (extractRP e) (extractRA e) f)) := by
  refine ⟨?_, ?_, ?_⟩
  · unfold wrapMethods
    rw [List.map_map]
    apply List.map_congr_left
    intro p _
    cases h : schema.lookup p.1 <;> simp [h]
  · intro name hname
    induction methods with
    | nil => rfl
    | cons p rest ih =>
      unfold wrapMethods at ih ⊢
      simp only [List.map_cons]
      by_cases hb : p.1 = name
      · subst hb
        rw [hname]
        simp [List.lookup]
      · have hb2 : (name == p.1) = false :=
          beq_eq_false_iff_ne.2 (fun hx => hb hx.symm)
        cases h : schema.lookup p.1 with
        | none =>
          simp only [h, List.lookup, hb2]
          exact ih
        | some e =>
          simp only [h, List.lookup, hb2]
          exact ih
  · intro name e f hname hm
    induction methods with
    | nil => cases hm
    | cons p rest ih =>
      unfold wrapMethods at ih ⊢
      simp only [List.map_cons]
      by_cases hb : p.1 = name
      · subst hb
        rw [hname]
        have hf : f = p.2 := by
          simp [List.lookup] at hm
          exact hm.symm
        subst hf
        simp [List.lookup]
      · have hb2 : (name == p.1) = false :=
          beq_eq_false_iff_ne.2 (fun hx => hb hx.symm)
        have hm2 : List.lookup name rest = some f := by
          simp only [List.lookup, hb2] at hm
          exact hm
        cases h : schema.lookup p.1 with
        | none =>
          simp only [h, List.lookup, hb2]
          exact ih hm2
        | some e2 =>
          simp only [h, List.lookup, hb2]
          exact ih hm2

/-- A second concrete method used by the C9 witness. -/
def otherMethod : RawFn := fun _ _ => JSVal.num (JSNum.fin 1)

/-- Witness for C9: with a schema naming only m, method m is replaced by
the interceptor carrying the extracted contract and method n keeps its
original function value. -/
theorem wrap_rewrites_exactly_schema_methods_witness :
    (wrapMethods [("m", SchemaEntry.funcT (some ["x"]) none)]
      [("m", spyMethod), ("n", otherMethod)]).lookup "n" =
      some (ProtoFun.raw otherMethod)
    ∧ (wrapMethods [("m", SchemaEntry.funcT (some ["x"]) none)]
      [("m", spyMethod), ("n", otherMethod)]).lookup "m" =
      some (ProtoFun.intercepted (some ["x"]) none spyMethod) := by
  constructor
  · have h := (wrap_rewrites_exactly_schema_methods
      [("m", SchemaEntry.funcT (some ["x"]) none)]
      [("m", spyMethod), ("n", otherMethod)]).2.1 "n" rfl
    rw [h]
    rfl
  · exact (wrap_rewrites_exactly_schema_methods
      [("m", SchemaEntry.funcT (some ["x"]) none)]
      [("m", spyMethod), ("n", otherMethod)]).2.2 "m"
      (SchemaEntry.funcT (some ["x"]) none) spyMethod rfl rfl

end TypeMyJS
